import Mathlib

/-!
Shallow embedding of the coffee-chat booking agent (src/app.py).

Time model:
* A naive local datetime (Python `datetime` without tzinfo) is a `NaiveDT`:
  a calendar date counted in days since Monday 2024-01-01 (so `date % 7` is
  Python's `date.weekday()`, Monday = 0), plus a time of day in minutes.
* An instant is an `Int`, minutes on the UTC timeline.
* An aware datetime (Python `datetime` with tzinfo) is an `AwareDT`: the UTC
  instant it denotes plus the utc offset (minutes east of UTC) of its tzinfo.
  Python compares aware datetimes by their UTC instant, and `astimezone`
  preserves the instant while changing the offset; both are modelled that way.
* The America/New_York zone used by the code is modelled by an offset map
  `off : Nat → Int` giving, for each calendar date, the offset (minutes east
  of UTC, so -300 for EST / -240 for EDT) that `pytz`'s `localize` assigns to
  naive times on that date (the slot grid 9:00–20:30 never touches the 2 AM
  DST switch, so the offset of a grid time depends only on its date), and by
  a map `offAt : Int → Int` giving the offset `astimezone` assigns at a given
  instant.
-/

namespace CoffeeChat

/-- A naive Python datetime: days since Monday 2024-01-01 and minutes since
midnight. -/
structure NaiveDT where
  date : Nat
  tod : Nat
  deriving DecidableEq, Repr

/-- `t + timedelta(days = k)` on a naive datetime. -/
def NaiveDT.addDays (t : NaiveDT) (k : Nat) : NaiveDT :=
  { date := t.date + k, tod := t.tod }

/-- Python `date.weekday()`: Monday = 0 … Sunday = 6 (day 0 is a Monday). -/
def weekday (d : Nat) : Nat := d % 7

/-- Python `str.lower()` on the character list of a string (the strings the
code lowercases are ASCII). -/
def lowerStr (s : List Char) : List Char := s.map Char.toLower

/-- Boolean list-prefix test, used to model Python's substring operator. -/
def isPrefixB : List Char → List Char → Bool
  | [], _ => true
  | _ :: _, [] => false
  | a :: as, b :: bs => a == b && isPrefixB as bs

/-- Python's `pat in s` substring test on strings. -/
def containsSub (pat : List Char) : List Char → Bool
  | [] => isPrefixB pat []
  | b :: bs => isPrefixB pat (b :: bs) || containsSub pat bs

/-- `CoffeeChatAgent._parse_date_range` (src/app.py lines 135-153): turn a
natural-language phrase into a `(start, end)` pair of naive datetimes, given
the `datetime.now()` the function reads. -/
def parse_date_range (dateRange : List Char) (now : NaiveDT) : NaiveDT × NaiveDT :=
  let low := lowerStr dateRange
  if containsSub "next week".toList low then
    let start := now.addDays (7 - weekday now.date)
    (start, start.addDays 7)
  else if containsSub "this week".toList low then
    (now, now.addDays (6 - weekday now.date))
  else if containsSub "tomorrow".toList low then
    let start := now.addDays 1
    (start, start.addDays 1)
  else
    (now, now.addDays 7)

/-- A busy-interval timestamp as the Google freebusy response reports it:
either a UTC instant with a `Z` suffix, or a naive local time paired with an
explicit UTC offset (minutes east of UTC). -/
inductive BusyTimeRepr where
  | zulu (naive : Int)
  | withOffset (naive : Int) (offsetMinutes : Int)
  deriving DecidableEq, Repr

/-- An aware Python datetime: the UTC instant it denotes and the utc offset of
its tzinfo. Comparisons of aware datetimes use `instant` only. -/
structure AwareDT where
  instant : Int
  utcOffset : Int
  deriving DecidableEq, Repr

/-- `datetime.fromisoformat(busy_str.replace('Z', '+00:00'))`
(src/app.py lines 218-221): a `Z` timestamp parses as offset `+00:00`; an
offset timestamp denotes the instant `naive - offset`. -/
def fromisoformat : BusyTimeRepr → AwareDT
  | .zulu n => { instant := n, utcOffset := 0 }
  | .withOffset n o => { instant := n - o, utcOffset := o }

/-- `dt.astimezone(eastern)` (src/app.py lines 224-225): the instant is
unchanged; the offset becomes the zone's offset at that instant. -/
def AwareDT.astimezone (a : AwareDT) (offAt : Int → Int) : AwareDT :=
  { instant := a.instant, utcOffset := offAt a.instant }

/-- A busy interval as reported by the freebusy query: a start and an end
timestamp representation. -/
structure BusyRepr where
  start : BusyTimeRepr
  stop : BusyTimeRepr
  deriving DecidableEq, Repr

/-- The UTC instant a busy timestamp denotes (what the code actually compares
after parsing and `astimezone`). -/
def BusyTimeRepr.denote (b : BusyTimeRepr) : Int :=
  (fromisoformat b).instant

/-- The instants a busy interval denotes. -/
def BusyRepr.denote (b : BusyRepr) : Int × Int :=
  (b.start.denote, b.stop.denote)

/-- The normalized busy timestamp used in the comparison: parse, then convert
to the Eastern zone (src/app.py lines 218-225). -/
def normalizeBusyTime (offAt : Int → Int) (b : BusyTimeRepr) : AwareDT :=
  (fromisoformat b).astimezone offAt

/-- A candidate slot as the code emits it: the `date` and `time` fields of the
dict appended at src/app.py lines 234-239 (`day` and `formatted` are string
renderings determined by these two). -/
structure Slot where
  date : Nat
  time : Nat
  deriving DecidableEq, Repr

/-- The slot-start grid of one day: `for hour in range(9, 21): for minute in
[0, 30]` (src/app.py lines 207-208), as minutes since midnight. -/
def timesOfDay : List Nat :=
  (List.range 12).flatMap (fun h => [(9 + h) * 60, (9 + h) * 60 + 30])

/-- The dates visited by `while current_date <= end_date` starting at
`start_date` (src/app.py lines 203, 241): `s, s+1, …, e` (empty when `e < s`). -/
def datesFrom (s e : Nat) : List Nat :=
  (List.range (e + 1 - s)).map (fun i => i + s)

/-- `eastern.localize(naive_dt)` for a slot on date `d` at `tod` minutes
(src/app.py lines 210-211), as a UTC instant: local wall time minus the
zone offset east of UTC. -/
def slotInstant (off : Nat → Int) (d tod : Nat) : Int :=
  1440 * (d : Int) + (tod : Int) - off d

/-- The overlap test of src/app.py line 227:
`slot_start < busy_end and slot_end > busy_start`. -/
def overlapB (slotStart slotEnd busyStart busyEnd : Int) : Bool :=
  decide (slotStart < busyEnd) && decide (slotEnd > busyStart)

/-- The `is_free` computation of src/app.py lines 215-229: the slot is free
iff it overlaps no busy interval, with busy endpoints parsed and normalized to
Eastern before the comparison. -/
def isFree (offAt : Int → Int) (busy : List BusyRepr) (slotStart slotEnd : Int) : Bool :=
  busy.all fun b =>
    !(overlapB slotStart slotEnd
        (normalizeBusyTime offAt b.start).instant
        (normalizeBusyTime offAt b.stop).instant)

/-- The acceptance test of src/app.py line 233: `is_free and slot_start >
earliest_booking_time`, for the slot on date `d` at grid time `tod`. -/
def slotOK (off : Nat → Int) (offAt : Int → Int) (busy : List BusyRepr)
    (duration : Int) (earliest : Int) (d tod : Nat) : Bool :=
  isFree offAt busy (slotInstant off d tod) (slotInstant off d tod + duration)
    && decide (slotInstant off d tod > earliest)

/-- The slots the inner loops of src/app.py lines 205-239 append for one
calendar date `d`: nothing on weekends; otherwise each grid time whose slot is
free and starts strictly after `earliest_booking_time`. -/
def slotsForDate (off : Nat → Int) (offAt : Int → Int) (busy : List BusyRepr)
    (duration : Int) (earliest : Int) (d : Nat) : List Slot :=
  if weekday d < 5 then
    timesOfDay.filterMap fun tod =>
      if slotOK off offAt busy duration earliest d tod then
        some { date := d, time := tod }
      else none
  else []

/-- The full `available_slots` list built by the date loop of src/app.py
lines 203-241, before the `[:5]` truncation. -/
def availableSlotsAll (off : Nat → Int) (offAt : Int → Int) (busy : List BusyRepr)
    (duration : Int) (earliest : Int) (startD endD : Nat) : List Slot :=
  (datesFrom startD endD).flatMap (slotsForDate off offAt busy duration earliest)

/-- `CoffeeChatAgent.check_calendar_availability` (src/app.py lines 174-250),
the pure slot-enumeration core: parse the date range from `nowNaive`
(`datetime.now()`), compute `earliest_booking_time = nowEastern + 24h`
(`datetime.now(eastern) + timedelta(hours=24)`, line 200), enumerate, and keep
the first 5 slots (line 244). `busy` is the parsed freebusy response. -/
def check_calendar_availability (off : Nat → Int) (offAt : Int → Int)
    (busy : List BusyRepr) (nowNaive : NaiveDT) (nowEastern : Int)
    (dateRange : List Char) (duration : Int) : List Slot :=
  let se := parse_date_range dateRange nowNaive
  let earliest := nowEastern + 24 * 60
  (availableSlotsAll off offAt busy duration earliest se.1.date se.2.date).take 5

/-! ### Helper lemmas about the enumeration -/

/-- Chronological (date-then-time) order on emitted slots. -/
def slotLt (a b : Slot) : Prop :=
  a.date < b.date ∨ (a.date = b.date ∧ a.time < b.time)

instance (a b : Slot) : Decidable (slotLt a b) := by
  unfold slotLt; infer_instance

lemma mem_timesOfDay_bounds {t : Nat} (ht : t ∈ timesOfDay) :
    540 ≤ t ∧ t ≤ 1230 := by
  have : timesOfDay.all (fun t => decide (540 ≤ t) && decide (t ≤ 1230)) = true := by decide
  have h := List.all_eq_true.mp this t ht
  simp only [Bool.and_eq_true, decide_eq_true_eq] at h
  exact h

lemma timesOfDay_pairwise : List.Pairwise (· < ·) timesOfDay := by decide

lemma mem_datesFrom {s e d : Nat} : d ∈ datesFrom s e ↔ s ≤ d ∧ d ≤ e := by
  simp only [datesFrom, List.mem_map, List.mem_range]
  constructor
  · rintro ⟨i, hi, rfl⟩; omega
  · intro h; exact ⟨d - s, by omega, by omega⟩

lemma datesFrom_pairwise {s e : Nat} : List.Pairwise (· < ·) (datesFrom s e) := by
  unfold datesFrom
  exact (List.pairwise_map).mpr ((List.pairwise_lt_range _).imp (by omega))

lemma mem_slotsForDate {off : Nat → Int} {offAt : Int → Int} {busy : List BusyRepr}
    {duration earliest : Int} {d : Nat} {x : Slot}
    (hx : x ∈ slotsForDate off offAt busy duration earliest d) :
    x.date = d ∧ x.time ∈ timesOfDay ∧ weekday d < 5
      ∧ slotOK off offAt busy duration earliest d x.time = true := by
  unfold slotsForDate at hx
  split at hx
  case isFalse => simp at hx
  case isTrue h5 =>
    simp only [List.mem_filterMap] at hx
    obtain ⟨tod, htod, heq⟩ := hx
    split at heq
    case isFalse => simp at heq
    case isTrue hok =>
      obtain rfl : Slot.mk d tod = x := by simpa using heq
      exact ⟨rfl, htod, h5, hok⟩

lemma mem_availableSlotsAll {off : Nat → Int} {offAt : Int → Int} {busy : List BusyRepr}
    {duration earliest : Int} {startD endD : Nat} {x : Slot}
    (hx : x ∈ availableSlotsAll off offAt busy duration earliest startD endD) :
    (startD ≤ x.date ∧ x.date ≤ endD) ∧ x.time ∈ timesOfDay ∧ weekday x.date < 5
      ∧ slotOK off offAt busy duration earliest x.date x.time = true := by
  unfold availableSlotsAll at hx
  obtain ⟨d, hd, hxd⟩ := List.mem_flatMap.mp hx
  obtain ⟨rfl, ht, h5, hok⟩ := mem_slotsForDate hxd
  exact ⟨mem_datesFrom.mp hd, ht, h5, hok⟩

lemma mem_check_calendar_availability {off : Nat → Int} {offAt : Int → Int}
    {busy : List BusyRepr} {nowNaive : NaiveDT} {nowEastern : Int}
    {dateRange : List Char} {duration : Int} {x : Slot}
    (hx : x ∈ check_calendar_availability off offAt busy nowNaive nowEastern dateRange duration) :
    x.time ∈ timesOfDay ∧ weekday x.date < 5
      ∧ slotOK off offAt busy duration (nowEastern + 24 * 60) x.date x.time = true := by
  unfold check_calendar_availability at hx
  have hx' := List.take_subset _ _ hx
  obtain ⟨-, ht, h5, hok⟩ := mem_availableSlotsAll hx'
  exact ⟨ht, h5, hok⟩

lemma slotOK_unpack {off : Nat → Int} {offAt : Int → Int} {busy : List BusyRepr}
    {duration earliest : Int} {d tod : Nat}
    (h : slotOK off offAt busy duration earliest d tod = true) :
    isFree offAt busy (slotInstant off d tod) (slotInstant off d tod + duration) = true
      ∧ slotInstant off d tod > earliest := by
  simp only [slotOK, Bool.and_eq_true, decide_eq_true_eq] at h
  exact h

lemma isFree_no_overlap {offAt : Int → Int} {busy : List BusyRepr}
    {slotStart slotEnd : Int} (h : isFree offAt busy slotStart slotEnd = true)
    {b : BusyRepr} (hb : b ∈ busy) :
    overlapB slotStart slotEnd
      (normalizeBusyTime offAt b.start).instant
      (normalizeBusyTime offAt b.stop).instant = false := by
  unfold isFree at h
  have := List.all_eq_true.mp h b hb
  simpa using this

lemma slotLt_ne {a b : Slot} (h : slotLt a b) : a ≠ b := by
  rintro rfl
  rcases h with h | ⟨-, h⟩ <;> omega

lemma slotsForDate_pairwise {off : Nat → Int} {offAt : Int → Int} {busy : List BusyRepr}
    {duration earliest : Int} {d : Nat} :
    List.Pairwise slotLt (slotsForDate off offAt busy duration earliest d) := by
  unfold slotsForDate
  split
  · refine List.Pairwise.filterMap _ ?_ timesOfDay_pairwise
    intro a a' hlt b hb b' hb'
    split at hb
    case isFalse => simp at hb
    case isTrue =>
      split at hb'
      case isFalse => simp at hb'
      case isTrue =>
        obtain rfl : b = Slot.mk d a := by simpa using hb.symm
        obtain rfl : b' = Slot.mk d a' := by simpa using hb'.symm
        exact Or.inr ⟨rfl, hlt⟩
  · exact List.Pairwise.nil

lemma availableSlotsAll_pairwise {off : Nat → Int} {offAt : Int → Int}
    {busy : List BusyRepr} {duration earliest : Int} {startD endD : Nat} :
    List.Pairwise slotLt (availableSlotsAll off offAt busy duration earliest startD endD) := by
  unfold availableSlotsAll
  refine List.pairwise_flatMap.mpr ⟨fun d _ => slotsForDate_pairwise, ?_⟩
  refine datesFrom_pairwise.imp ?_
  intro d1 d2 hlt x hx y hy
  have hx' := (mem_slotsForDate hx).1
  have hy' := (mem_slotsForDate hy).1
  exact Or.inl (by omega)

lemma slotLt_instant {off : Nat → Int} (hoff : ∀ d, -360 ≤ off d ∧ off d ≤ 360)
    {a b : Slot} (hta : a.time ∈ timesOfDay) (htb : b.time ∈ timesOfDay)
    (h : slotLt a b) :
    slotInstant off a.date a.time < slotInstant off b.date b.time := by
  have ha := mem_timesOfDay_bounds hta
  have hb := mem_timesOfDay_bounds htb
  have h1 := hoff a.date
  have h2 := hoff b.date
  unfold slotInstant
  rcases h with h | ⟨heq, hlt⟩
  · omega
  · rw [heq] at h1 ⊢
    omega

lemma check_eq_take {off : Nat → Int} {offAt : Int → Int} {busy : List BusyRepr}
    {nowNaive : NaiveDT} {nowEastern : Int} {dateRange : List Char} {duration : Int} :
    check_calendar_availability off offAt busy nowNaive nowEastern dateRange duration
      = (availableSlotsAll off offAt busy duration (nowEastern + 24 * 60)
          (parse_date_range dateRange nowNaive).1.date
          (parse_date_range dateRange nowNaive).2.date).take 5 := rfl

/-! ### Test fixtures used by the witness theorems

A constant EST offset (-300 minutes east of UTC), "now" = Monday 2024-01-01
10:00 naive / instant 0 on the eastern clock, one busy interval covering
10:00-10:30 Eastern on Tuesday 2024-01-02 (instants 2340-2370, reported in
UTC with a Z suffix). -/

def cOff : Nat → Int := fun _ => -300

def cOffAt : Int → Int := fun _ => -300

def cNow : NaiveDT := { date := 0, tod := 600 }

def cBusy : List BusyRepr := [{ start := .zulu 2340, stop := .zulu 2370 }]

/-! ### Claim theorems -/

/-- C1: no candidate slot returned by `check_calendar_availability` overlaps
any busy interval, where overlap is the half-open test
`slotStart < busyEnd AND slotEnd > busyStart` (src/app.py line 227); and a
slot that merely touches busy-interval boundaries passes the `is_free` test,
so it is not rejected by the overlap filter. -/
theorem C1_no_overlap (off : Nat → Int) (offAt : Int → Int) (busy : List BusyRepr)
    (nowNaive : NaiveDT) (nowEastern : Int) (dateRange : List Char) (duration : Int) :
    (∀ s ∈ check_calendar_availability off offAt busy nowNaive nowEastern dateRange duration,
      ∀ b ∈ busy,
        overlapB (slotInstant off s.date s.time) (slotInstant off s.date s.time + duration)
          (normalizeBusyTime offAt b.start).instant
          (normalizeBusyTime offAt b.stop).instant = false)
    ∧ (∀ slotStart slotEnd : Int,
        (∀ b ∈ busy, slotEnd ≤ (normalizeBusyTime offAt b.start).instant ∨
          (normalizeBusyTime offAt b.stop).instant ≤ slotStart) →
        isFree offAt busy slotStart slotEnd = true) := by
  constructor
  · intro s hs b hb
    obtain ⟨-, -, hok⟩ := mem_check_calendar_availability hs
    exact isFree_no_overlap (slotOK_unpack hok).1 hb
  · intro slotStart slotEnd h
    unfold isFree
    refine List.all_eq_true.mpr fun b hb => ?_
    have := h b hb
    simp only [overlapB, Bool.not_eq_eq_eq_not, Bool.not_true, Bool.and_eq_false_iff,
      decide_eq_false_iff_not, not_lt, gt_iff_lt]
    omega

/-- C1 witness: in the concrete fixture the slot Tuesday 9:30 is returned and
does not overlap the busy interval; and the boundary-touching slot ending
exactly at the busy start passes `is_free`. -/
theorem C1_no_overlap_witness :
    Slot.mk 1 570 ∈ check_calendar_availability cOff cOffAt cBusy cNow 0 "tomorrow".toList 30
    ∧ overlapB (slotInstant cOff 1 570) (slotInstant cOff 1 570 + 30)
        (normalizeBusyTime cOffAt (BusyTimeRepr.zulu 2340)).instant
        (normalizeBusyTime cOffAt (BusyTimeRepr.zulu 2370)).instant = false
    ∧ isFree cOffAt cBusy 2310 2340 = true := by
  refine ⟨by decide, ?_, ?_⟩
  · exact (C1_no_overlap cOff cOffAt cBusy cNow 0 "tomorrow".toList 30).1
      (Slot.mk 1 570) (by decide) { start := .zulu 2340, stop := .zulu 2370 } (by decide)
  · exact (C1_no_overlap cOff cOffAt cBusy cNow 0 "tomorrow".toList 30).2
      2310 2340 (by decide)

/-- C2: every slot returned by `check_calendar_availability` starts strictly
after `nowEastern + 24` hours (`earliest_booking_time`, src/app.py lines
199-200 and 233), so a slot starting exactly at now + 24h is rejected. -/
theorem C2_min_advance (off : Nat → Int) (offAt : Int → Int) (busy : List BusyRepr)
    (nowNaive : NaiveDT) (nowEastern : Int) (dateRange : List Char) (duration : Int) :
    ∀ s ∈ check_calendar_availability off offAt busy nowNaive nowEastern dateRange duration,
      slotInstant off s.date s.time > nowEastern + 24 * 60 := by
  intro s hs
  obtain ⟨-, -, hok⟩ := mem_check_calendar_availability hs
  exact (slotOK_unpack hok).2

/-- C2 witness: the fixture's first returned slot (Tuesday 9:00, instant 2280)
starts strictly after instant 0 + 24h = 1440. -/
theorem C2_min_advance_witness :
    slotInstant cOff 1 540 > 0 + 24 * 60 := by
  have h := C2_min_advance cOff cOffAt cBusy cNow 0 "tomorrow".toList 30
    (Slot.mk 1 540) (by decide)
  exact h

/-- C3: every returned slot falls on a weekday (Monday–Friday, src/app.py
line 205) and its start time of day lies in [9:00, 21:00) (lines 207-208),
for every requested duration. -/
theorem C3_working_hours (off : Nat → Int) (offAt : Int → Int) (busy : List BusyRepr)
    (nowNaive : NaiveDT) (nowEastern : Int) (dateRange : List Char) (duration : Int) :
    ∀ s ∈ check_calendar_availability off offAt busy nowNaive nowEastern dateRange duration,
      weekday s.date < 5 ∧ 9 * 60 ≤ s.time ∧ s.time < 21 * 60 := by
  intro s hs
  obtain ⟨ht, h5, -⟩ := mem_check_calendar_availability hs
  have hb := mem_timesOfDay_bounds ht
  exact ⟨h5, by omega, by omega⟩

/-- C3 witness: the fixture's returned slot Tuesday 9:30 is on a weekday with
time of day inside the working window. -/
theorem C3_working_hours_witness :
    weekday 1 < 5 ∧ 9 * 60 ≤ 570 ∧ 570 < 21 * 60 := by
  exact C3_working_hours cOff cOffAt cBusy cNow 0 "tomorrow".toList 30
    (Slot.mk 1 570) (by decide)

/-- C4: the returned list has length at most 5 (the `[:5]` truncation,
src/app.py line 244), is chronologically sorted with no duplicates, every
qualifying slot left out by the truncation is later than every returned slot
(so the earliest ones are kept), and under the real bounds on the
America/New_York offset the slot-start instants are strictly increasing. -/
theorem C4_output_shape (off : Nat → Int) (offAt : Int → Int) (busy : List BusyRepr)
    (nowNaive : NaiveDT) (nowEastern : Int) (dateRange : List Char) (duration : Int) :
    (check_calendar_availability off offAt busy nowNaive nowEastern dateRange duration).length ≤ 5
    ∧ List.Pairwise slotLt
        (check_calendar_availability off offAt busy nowNaive nowEastern dateRange duration)
    ∧ (check_calendar_availability off offAt busy nowNaive nowEastern dateRange duration).Nodup
    ∧ (∀ q ∈ availableSlotsAll off offAt busy duration (nowEastern + 24 * 60)
          (parse_date_range dateRange nowNaive).1.date
          (parse_date_range dateRange nowNaive).2.date,
        q ∉ check_calendar_availability off offAt busy nowNaive nowEastern dateRange duration →
        ∀ s ∈ check_calendar_availability off offAt busy nowNaive nowEastern dateRange duration,
          slotLt s q)
    ∧ ((∀ d, -360 ≤ off d ∧ off d ≤ 360) →
        List.Pairwise (fun a b => slotInstant off a.date a.time < slotInstant off b.date b.time)
          (check_calendar_availability off offAt busy nowNaive nowEastern dateRange duration)) := by
  have hall : List.Pairwise slotLt
      (availableSlotsAll off offAt busy duration (nowEastern + 24 * 60)
        (parse_date_range dateRange nowNaive).1.date
        (parse_date_range dateRange nowNaive).2.date) := availableSlotsAll_pairwise
  have hpair : List.Pairwise slotLt
      (check_calendar_availability off offAt busy nowNaive nowEastern dateRange duration) := by
    rw [check_eq_take]
    exact List.Pairwise.sublist (List.take_sublist _ _) hall
  refine ⟨?_, hpair, hpair.imp slotLt_ne, ?_, ?_⟩
  · rw [check_eq_take, List.length_take]
    exact Nat.min_le_left _ _
  · intro q hq hqout s hs
    rw [check_eq_take] at hqout hs
    rw [← List.take_append_drop 5
      (availableSlotsAll off offAt busy duration (nowEastern + 24 * 60)
        (parse_date_range dateRange nowNaive).1.date
        (parse_date_range dateRange nowNaive).2.date)] at hq hall
    rcases List.mem_append.mp hq with hq' | hq'
    · exact absurd hq' hqout
    · exact (List.pairwise_append.mp hall).2.2 s hs q hq'
  · intro hoff
    refine hpair.imp_of_mem ?_
    intro a b ha hb hlt
    exact slotLt_instant hoff (mem_check_calendar_availability ha).1
      (mem_check_calendar_availability hb).1 hlt

/-- C4 witness: in the concrete fixture the cap holds, the qualifying slot
Tuesday 12:00 (dropped by the truncation) is later than the returned slot
Tuesday 9:00, and the returned slot instants are strictly increasing. -/
theorem C4_output_shape_witness :
    (check_calendar_availability cOff cOffAt cBusy cNow 0 "tomorrow".toList 30).length ≤ 5
    ∧ slotLt (Slot.mk 1 540) (Slot.mk 1 720)
    ∧ List.Pairwise (fun a b => slotInstant cOff a.date a.time < slotInstant cOff b.date b.time)
        (check_calendar_availability cOff cOffAt cBusy cNow 0 "tomorrow".toList 30) := by
  have h := C4_output_shape cOff cOffAt cBusy cNow 0 "tomorrow".toList 30
  refine ⟨h.1, ?_, ?_⟩
  · exact h.2.2.2.1 (Slot.mk 1 720) (by decide) (by decide) (Slot.mk 1 540) (by decide)
  · exact h.2.2.2.2 (fun d => ⟨by norm_num [cOff], by norm_num [cOff]⟩)

/-- C6: for a reference on a Monday, "next week" resolves to the 7-day
interval one week boundary later (src/app.py lines 139-141); with day 0 =
Monday 2024-01-01, the result runs from day 7 (2024-01-08) to day 14
(2024-01-15). -/
theorem C6_next_week (now : NaiveDT) (h : weekday now.date = 0) :
    parse_date_range "next week".toList now
      = (NaiveDT.mk (now.date + 7) now.tod, NaiveDT.mk (now.date + 14) now.tod) := by
  have hc : containsSub "next week".toList (lowerStr "next week".toList) = true := by decide
  simp only [parse_date_range, hc, if_true, NaiveDT.addDays, h]

/-- C6 witness: with "now" = Monday 2024-01-01 (day 0), "next week" resolves
to days 7 through 14, i.e. 2024-01-08 through 2024-01-15. -/
theorem C6_next_week_witness :
    parse_date_range "next week".toList cNow
      = (NaiveDT.mk 7 600, NaiveDT.mk 14 600) :=
  C6_next_week cNow (by decide)

/-- C7: a phrase containing none of the recognized substrings resolves to the
default 7-day interval starting at the reference (src/app.py lines 148-151);
the resolver is a total function, so no phrase makes it raise. -/
theorem C7_default_fallback (phrase : List Char) (now : NaiveDT)
    (h1 : containsSub "next week".toList (lowerStr phrase) = false)
    (h2 : containsSub "this week".toList (lowerStr phrase) = false)
    (h3 : containsSub "tomorrow".toList (lowerStr phrase) = false) :
    parse_date_range phrase now = (now, now.addDays 7) := by
  simp only [parse_date_range, h1, h2, h3, Bool.false_eq_true, if_false]

/-- C7 witness: "whenever in march" matches no recognized substring and falls
back to the default interval. -/
theorem C7_default_fallback_witness :
    parse_date_range "whenever in march".toList cNow = (cNow, cNow.addDays 7) :=
  C7_default_fallback "whenever in march".toList cNow (by decide) (by decide) (by decide)

lemma normalizeBusyTime_instant (offAt : Int → Int) (b : BusyTimeRepr) :
    (normalizeBusyTime offAt b).instant = b.denote := by
  cases b <;>
    simp [normalizeBusyTime, fromisoformat, AwareDT.astimezone, BusyTimeRepr.denote]

lemma isFree_congr {offAt : Int → Int} :
    ∀ (busy1 busy2 : List BusyRepr),
      busy1.map BusyRepr.denote = busy2.map BusyRepr.denote →
      ∀ ss se : Int, isFree offAt busy1 ss se = isFree offAt busy2 ss se := by
  intro busy1
  induction busy1 with
  | nil =>
    intro busy2 h ss se
    obtain rfl : busy2 = [] := List.map_eq_nil_iff.mp h.symm
    rfl
  | cons a t ih =>
    intro busy2 h ss se
    cases busy2 with
    | nil => simp at h
    | cons a' t' =>
      simp only [List.map_cons, List.cons.injEq] at h
      obtain ⟨hhead, htail⟩ := h
      simp only [BusyRepr.denote, Prod.mk.injEq] at hhead
      have htl := ih t' htail ss se
      simp only [isFree] at htl ⊢
      rw [List.all_cons, List.all_cons, htl]
      simp only [normalizeBusyTime_instant, hhead.1, hhead.2]

/-- C8: the busy timestamps compared against slots are the parsed instants
normalized to the Eastern zone (src/app.py lines 218-225) — normalization
preserves the denoted instant and stamps the zone's offset at that instant —
and the availability result depends on busy intervals only through the
instants they denote, so any two source representations of the same instants
(UTC `Z` form or explicit-offset form) yield the same output. -/
theorem C8_normalization (offAt : Int → Int) :
    (∀ b : BusyTimeRepr, (normalizeBusyTime offAt b).instant = b.denote
      ∧ (normalizeBusyTime offAt b).utcOffset = offAt b.denote)
    ∧ (∀ (off : Nat → Int) (busy1 busy2 : List BusyRepr) (nowNaive : NaiveDT)
        (nowEastern : Int) (dateRange : List Char) (duration : Int),
        busy1.map BusyRepr.denote = busy2.map BusyRepr.denote →
        check_calendar_availability off offAt busy1 nowNaive nowEastern dateRange duration
          = check_calendar_availability off offAt busy2 nowNaive nowEastern dateRange duration) := by
  constructor
  · intro b
    refine ⟨normalizeBusyTime_instant offAt b, ?_⟩
    cases b <;>
      simp [normalizeBusyTime, fromisoformat, AwareDT.astimezone, BusyTimeRepr.denote]
  · intro off busy1 busy2 nowNaive nowEastern dateRange duration h
    have hsfd : ∀ (earliest : Int) (d : Nat),
        slotsForDate off offAt busy1 duration earliest d
          = slotsForDate off offAt busy2 duration earliest d := by
      intro earliest d
      unfold slotsForDate
      split
      · refine List.filterMap_congr fun tod _ => ?_
        unfold slotOK
        rw [isFree_congr busy1 busy2 h]
      · rfl
    rw [check_eq_take, check_eq_take]
    unfold availableSlotsAll
    exact congrArg (List.take 5) (List.flatMap_congr fun d _ => hsfd _ d)

/-- C8 witness: the fixture's busy interval in UTC `Z` form and the same
instants written as Eastern wall time with an explicit -05:00 offset produce
the same availability output. -/
theorem C8_normalization_witness :
    ([{ start := BusyTimeRepr.zulu 2340, stop := BusyTimeRepr.zulu 2370 }] : List BusyRepr).map
        BusyRepr.denote
      = ([{ start := BusyTimeRepr.withOffset 2040 (-300),
            stop := BusyTimeRepr.withOffset 2070 (-300) }] : List BusyRepr).map BusyRepr.denote
    ∧ check_calendar_availability cOff cOffAt
        [{ start := BusyTimeRepr.zulu 2340, stop := BusyTimeRepr.zulu 2370 }]
        cNow 0 "tomorrow".toList 30
      = check_calendar_availability cOff cOffAt
        [{ start := BusyTimeRepr.withOffset 2040 (-300),
           stop := BusyTimeRepr.withOffset 2070 (-300) }]
        cNow 0 "tomorrow".toList 30 := by
  refine ⟨by decide, ?_⟩
  exact (C8_normalization cOffAt).2 cOff _ _ cNow 0 "tomorrow".toList 30 (by decide)

/-- C10: the date loop `while current_date <= end_date` (src/app.py line 203)
is end-inclusive: the visited dates are exactly those between the start and
end dates inclusive; the interval resolved for a "next week" phrase is
enumerated over 8 calendar dates; and a slot on the end date itself is
generated (here with no busy intervals, duration 30, earliest instant 0, over
days 7..14). -/
theorem C10_end_date_inclusive :
    (∀ s e d : Nat, d ∈ datesFrom s e ↔ s ≤ d ∧ d ≤ e)
    ∧ (∀ (phrase : List Char) (now : NaiveDT),
        containsSub "next week".toList (lowerStr phrase) = true →
        (datesFrom (parse_date_range phrase now).1.date
          (parse_date_range phrase now).2.date).length = 8)
    ∧ Slot.mk 14 540 ∈ availableSlotsAll cOff cOffAt [] 30 0 7 14 := by
  refine ⟨fun s e d => mem_datesFrom, ?_, by decide⟩
  intro phrase now h
  simp only [parse_date_range, h, if_true, NaiveDT.addDays]
  unfold datesFrom
  rw [List.length_map, List.length_range]
  omega

/-- C10 witness: day 14 is among the dates enumerated from 7 to 14, and the
"next week" interval from the fixture reference spans 8 enumerated dates. -/
theorem C10_end_date_inclusive_witness :
    (14 ∈ datesFrom 7 14 ↔ 7 ≤ 14 ∧ 14 ≤ 14)
    ∧ (datesFrom (parse_date_range "next week".toList cNow).1.date
        (parse_date_range "next week".toList cNow).2.date).length = 8 :=
  ⟨C10_end_date_inclusive.1 7 14 14,
    C10_end_date_inclusive.2.1 "next week".toList cNow (by decide)⟩

/-! ### Tool dispatch and the chat loop -/

/-- Python exception kinds the tool code can raise: `HttpError` from the
Google client, `ValueError` from `strptime`, `TypeError` from binding the
`**parameters` keyword arguments. -/
inductive PyErr where
  | httpError (msg : String)
  | valueError (msg : String)
  | typeError (msg : String)
  deriving DecidableEq, Repr

/-- Split a character list at every occurrence of `sep` (the behaviour of
Python `str.split(sep)` on the separators `strptime` needs). -/
def splitOnChar (sep : Char) : List Char → List (List Char)
  | [] => [[]]
  | c :: rest =>
    match splitOnChar sep rest with
    | [] => [[c]]
    | g :: gs => if c == sep then [] :: g :: gs else (c :: g) :: gs

/-- A digits-only character list as a number (helper for the `strptime`
model). -/
def digitsToNat (cs : List Char) : Option Nat :=
  if cs ≠ [] ∧ cs.all Char.isDigit then
    some (cs.foldl (fun a c => a * 10 + (c.toNat - 48)) 0)
  else none

/-- The naive datetime parsed from the model-supplied `date` and `time`
strings. -/
structure EventDT where
  year : Nat
  month : Nat
  day : Nat
  hour : Nat
  minute : Nat
  deriving DecidableEq, Repr

/-- Models the Python stdlib call
`datetime.strptime(f"{date} {time}", "%Y-%m-%d %H:%M")` at src/app.py
line 261: digit fields split by the literal separators, with month 1-12,
day 1-31, hour 0-23, minute 0-59; anything else raises `ValueError`. -/
def strptime_event (date time : String) : Except PyErr EventDT :=
  match splitOnChar '-' date.toList, splitOnChar ':' time.toList with
  | [y, m, d], [hh, mm] =>
    match digitsToNat y, digitsToNat m, digitsToNat d, digitsToNat hh, digitsToNat mm with
    | some yn, some mn, some dn, some hn, some minn =>
      if 1 ≤ mn ∧ mn ≤ 12 ∧ 1 ≤ dn ∧ dn ≤ 31 ∧ hn ≤ 23 ∧ minn ≤ 59 then
        Except.ok { year := yn, month := mn, day := dn, hour := hn, minute := minn }
      else Except.error (.valueError "time data does not match format")
    | _, _, _, _, _ => Except.error (.valueError "time data does not match format")
  | _, _ => Except.error (.valueError "time data does not match format")

/-- Result of a successful `events().insert` call (src/app.py lines
295-307): event id, html link, and optional Meet link. -/
structure EventResult where
  id : String
  htmlLink : String
  meetLink : Option String
  deriving DecidableEq, Repr

/-- The external Google provider boundary (the remote calls the handlers
make): each operation returns a value or raises, usually an `HttpError`. -/
structure Gateway where
  freebusy : Except PyErr (List BusyRepr)
  insertEvent : EventDT → Int → String → String → Except PyErr EventResult
  gmailSend : String → String → Except PyErr String

/-- The dict a tool handler returns to the model, restricted to the fields
the claims are about; absent keys are `none`. -/
structure Payload where
  error : Option String := none
  success : Option Bool := none
  event_id : Option String := none
  meet_link : Option (Option String) := none
  available_slots : Option (List Slot) := none
  emails_sent : Option (List String) := none
  deriving DecidableEq, Repr

/-- `CoffeeChatAgent.create_google_meet_event` (src/app.py lines 256-332):
parse date and time (`ValueError` on mismatch), create the event through the
provider, and return a success payload; the `except HttpError` handler at
line 330 turns provider failures into `{"error": ..., "success": False}`;
any other exception propagates. -/
def create_google_meet_event (gw : Gateway) (date time : String) (duration : Int)
    (attendee_email : String) (topic : String) : Except PyErr Payload :=
  match (do
      let dt ← strptime_event date time
      let res ← gw.insertEvent dt duration attendee_email topic
      Except.ok res : Except PyErr EventResult) with
  | .ok res =>
    .ok { event_id := some res.id, meet_link := some res.meetLink, success := some true }
  | .error (.httpError m) =>
    .ok { error := some ("Event creation failed: " ++ m), success := some false }
  | .error e => .error e

/-- The `try`/`except HttpError` shell of `check_calendar_availability`
(src/app.py lines 176, 252-254) around the pure enumeration core: a provider
failure of the freebusy query becomes `{"error": "Calendar check failed..."}`;
other exceptions propagate. -/
def check_calendar_availability_tool (gw : Gateway) (off : Nat → Int)
    (offAt : Int → Int) (nowNaive : NaiveDT) (nowEastern : Int)
    (dateRange : String) (duration : Int) : Except PyErr Payload :=
  match gw.freebusy with
  | .ok busy =>
    .ok { available_slots :=
            some (check_calendar_availability off offAt busy nowNaive nowEastern
              dateRange.toList duration) }
  | .error (.httpError m) => .ok { error := some ("Calendar check failed: " ++ m) }
  | .error e => .error e

/-- The meeting-details dict passed to `send_confirmation_email`; the code
also accepts it as a JSON string (`json.loads` at src/app.py line 337) —
the already-parsed dict branch of that line is what is modelled. -/
structure EventDetails where
  date : String
  time : String
  meet_link : Option String := none
  topic : Option String := none
  deriving DecidableEq, Repr

/-- `CoffeeChatAgent.send_confirmation_email` (src/app.py lines 334-414):
format the meeting time via `strptime` (`ValueError` on mismatch), send the
attendee and notification mails through the provider; `except HttpError` at
line 412 turns provider failures into `{"error": ..., "success": False}`;
other exceptions propagate. -/
def send_confirmation_email (gw : Gateway) (attendee_email : String)
    (event_details : EventDetails) : Except PyErr Payload :=
  match (do
      let _ ← strptime_event event_details.date event_details.time
      let m1 ← gw.gmailSend attendee_email "confirmation"
      let m2 ← gw.gmailSend "vachik123@gmail.com" "notification"
      Except.ok (m1, m2) : Except PyErr (String × String)) with
  | .ok _ =>
    .ok { success := some true,
          emails_sent := some [attendee_email, "vachik123@gmail.com"] }
  | .error (.httpError m) =>
    .ok { error := some ("Email sending failed: " ++ m), success := some false }
  | .error e => .error e

/-- The keyword arguments of a tool call, as bound by the handler signatures
through `**parameters` (src/app.py lines 421-426). -/
inductive ToolParams where
  | availability (date_range : String) (duration : Int)
  | createEvent (date time : String) (duration : Int) (attendee_email topic : String)
  | confirmation (attendee_email : String) (event_details : EventDetails)
  deriving DecidableEq, Repr

/-- A tool invocation requested by the model: a name and parameters. -/
structure ToolCall where
  name : String
  params : ToolParams
  deriving DecidableEq, Repr

/-- `CoffeeChatAgent.execute_tool` (src/app.py lines 416-428): dispatch by
tool name; an unknown name yields an `{"error": "Unknown tool: ..."}` payload
without raising; for a known name, parameters that do not match the handler
signature raise `TypeError` at the `**parameters` call site (outside every
`try` block). -/
def execute_tool (gw : Gateway) (off : Nat → Int) (offAt : Int → Int)
    (nowNaive : NaiveDT) (nowEastern : Int) (tc : ToolCall) : Except PyErr Payload :=
  if tc.name = "check_calendar_availability" then
    match tc.params with
    | .availability dr dur =>
      check_calendar_availability_tool gw off offAt nowNaive nowEastern dr dur
    | _ => .error (.typeError "got an unexpected keyword argument")
  else if tc.name = "create_google_meet_event" then
    match tc.params with
    | .createEvent date time dur att topic =>
      create_google_meet_event gw date time dur att topic
    | _ => .error (.typeError "got an unexpected keyword argument")
  else if tc.name = "send_confirmation_email" then
    match tc.params with
    | .confirmation att det => send_confirmation_email gw att det
    | _ => .error (.typeError "got an unexpected keyword argument")
  else
    .ok { error := some ("Unknown tool: " ++ tc.name) }

/-- A model response: final text and requested tool invocations (the Cohere
response object as the loop reads it). -/
structure ModelResponse where
  text : String
  tool_calls : List ToolCall

/-- The `while response.tool_calls` loop of `CoffeeChatAgent.chat`
(src/app.py lines 458-476): execute every requested tool with no surrounding
`try` (an uncaught exception propagates out of the loop), then send the
collected tool results back to the model and repeat; a response without tool
calls ends the loop with its final text. The model is abstracted as a script
of continuations, one per `co.chat` resumption, each mapping the tool results
fed back to the model to its next response; an exhausted script stands for a
model call that cannot be answered. -/
def chat_loop (gw : Gateway) (off : Nat → Int) (offAt : Int → Int)
    (nowNaive : NaiveDT) (nowEastern : Int) :
    ModelResponse → List (List Payload → ModelResponse) → Except PyErr String
  | r, script =>
    match r.tool_calls with
    | [] => .ok r.text
    | _ :: _ => do
      let results ← r.tool_calls.mapM (execute_tool gw off offAt nowNaive nowEastern)
      match script with
      | [] => .error (.valueError "model stream ended")
      | f :: rest => chat_loop gw off offAt nowNaive nowEastern (f results) rest

/-- A provider that fails event creation with an `HttpError`, used by the
witnesses. -/
def cFailGateway : Gateway where
  freebusy := .ok []
  insertEvent := fun _ _ _ _ => .error (.httpError "503")
  gmailSend := fun _ _ => .ok "msg1"

/-- C9: dispatching a tool call whose name is none of the three declared
tools returns the `{"error": "Unknown tool: <name>"}` payload (src/app.py
lines 427-428) instead of raising, for any parameters and provider. -/
theorem C9_unknown_tool (gw : Gateway) (off : Nat → Int) (offAt : Int → Int)
    (nowNaive : NaiveDT) (nowEastern : Int) (name : String) (params : ToolParams)
    (h1 : name ≠ "check_calendar_availability")
    (h2 : name ≠ "create_google_meet_event")
    (h3 : name ≠ "send_confirmation_email") :
    execute_tool gw off offAt nowNaive nowEastern ⟨name, params⟩
      = .ok { error := some ("Unknown tool: " ++ name) } := by
  unfold execute_tool
  simp [h1, h2, h3]

/-- C9 witness: the unknown tool name "foo" produces the structured error
payload. -/
theorem C9_unknown_tool_witness :
    execute_tool cFailGateway cOff cOffAt cNow 0 ⟨"foo", .availability "next week" 30⟩
      = .ok { error := some "Unknown tool: foo" } :=
  C9_unknown_tool cFailGateway cOff cOffAt cNow 0 "foo" (.availability "next week" 30)
    (by decide) (by decide) (by decide)

/-- C5 counterexample: the claim that the dispatch loop converts every tool
failure into an error payload fed back to the model is false — a
`create_google_meet_event` call whose `date` argument does not match the
`strptime` format raises `ValueError` inside the handler, which no
`except` clause catches, so the chat loop aborts with the exception instead
of continuing with a tool-result payload. -/
theorem C5_dispatch_counterexample :
    chat_loop cFailGateway cOff cOffAt cNow 0
      ⟨"", [⟨"create_google_meet_event",
        .createEvent "not-a-date" "10:00" 30 "a@b.com" "chat"⟩]⟩
      [fun _ => ⟨"done", []⟩]
      = .error (.valueError "time data does not match format") := rfl

/-- C5 (amended): a provider `HttpError` during event creation is caught by
the handler (src/app.py lines 330-332) and turned into a payload with an
error field and `success = False`, and the chat loop then continues to the
next model call with that payload among the tool results, rather than
terminating; only non-`HttpError` exceptions escape. -/
theorem C5_provider_error_handled (gw : Gateway) (off : Nat → Int) (offAt : Int → Int)
    (nowNaive : NaiveDT) (nowEastern : Int) (date time : String) (duration : Int)
    (att topic : String) (dt : EventDT) (msg : String)
    (hparse : strptime_event date time = .ok dt)
    (hfail : gw.insertEvent dt duration att topic = .error (.httpError msg)) :
    create_google_meet_event gw date time duration att topic
      = .ok { error := some ("Event creation failed: " ++ msg), success := some false }
    ∧ (∀ (text : String) (f : List Payload → ModelResponse)
        (rest : List (List Payload → ModelResponse)),
        chat_loop gw off offAt nowNaive nowEastern
          ⟨text, [⟨"create_google_meet_event", .createEvent date time duration att topic⟩]⟩
          (f :: rest)
        = chat_loop gw off offAt nowNaive nowEastern
            (f [{ error := some ("Event creation failed: " ++ msg), success := some false }])
            rest) := by
  have hcreate : create_google_meet_event gw date time duration att topic
      = .ok { error := some ("Event creation failed: " ++ msg), success := some false } := by
    simp [create_google_meet_event, hparse, hfail, bind, Except.bind]
  refine ⟨hcreate, ?_⟩
  intro text f rest
  have hexec : execute_tool gw off offAt nowNaive nowEastern
      ⟨"create_google_meet_event", .createEvent date time duration att topic⟩
      = .ok { error := some ("Event creation failed: " ++ msg), success := some false } := by
    unfold execute_tool
    simpa using hcreate
  have h1 : chat_loop gw off offAt nowNaive nowEastern
      ⟨text, [⟨"create_google_meet_event", .createEvent date time duration att topic⟩]⟩
      (f :: rest)
      = (([⟨"create_google_meet_event", .createEvent date time duration att topic⟩] :
          List ToolCall).mapM (execute_tool gw off offAt nowNaive nowEastern)).bind
          (fun results => chat_loop gw off offAt nowNaive nowEastern (f results) rest) := rfl
  have h2 : ([⟨"create_google_meet_event", .createEvent date time duration att topic⟩] :
      List ToolCall).mapM (execute_tool gw off offAt nowNaive nowEastern)
      = Except.ok
          [{ error := some ("Event creation failed: " ++ msg), success := some false }] := by
    rw [List.mapM_cons, hexec]
    rfl
  rw [h1, h2]
  rfl

/-- C5 witness: with a provider whose event insertion fails with HTTP 503,
booking a well-formed date yields the error payload and the loop continues,
ending with the next model response's text. -/
theorem C5_provider_error_handled_witness :
    strptime_event "2024-01-09" "10:00" = .ok ⟨2024, 1, 9, 10, 0⟩
    ∧ create_google_meet_event cFailGateway "2024-01-09" "10:00" 30 "a@b.com" "career"
        = .ok { error := some "Event creation failed: 503", success := some false }
    ∧ chat_loop cFailGateway cOff cOffAt cNow 0
        ⟨"", [⟨"create_google_meet_event",
          .createEvent "2024-01-09" "10:00" 30 "a@b.com" "career"⟩]⟩
        [fun _ => ⟨"could not book", []⟩]
        = .ok "could not book" := by
  have h := C5_provider_error_handled cFailGateway cOff cOffAt cNow 0
    "2024-01-09" "10:00" 30 "a@b.com" "career" ⟨2024, 1, 9, 10, 0⟩ "503" rfl rfl
  refine ⟨rfl, h.1, ?_⟩
  rw [h.2 "" (fun _ => ⟨"could not book", []⟩) []]
  rfl

end CoffeeChat
